import Mathlib

/-!
Verification of the WebRTC-Ionic-Client peer-session lifecycle manager
(`src/app/home/home.page.ts`, class `HomePage`).

The stateful TypeScript component is shallowly embedded as explicit state
passing over `HomePageState`.  JavaScript `Map` objects are modelled as
association lists with JS `Map` semantics (`mapGet`, `mapSet` replaces the
existing entry in place or appends, `mapDelete`); key type is
`Option String` because the identifiers coming off the wire are nullable
strings, `none` modelling `null`/`undefined`.  `RTCPeerConnection` objects
are modelled by `PeerConnection` records carrying an object identity
(`objId`, so that "same object" versus "fresh object" questions are
expressible) and a log `ops` of the mutating operations applied to them, in
order.  Side effects other than state mutation (socket emissions,
`close()` on a connection, `stop()` on a track) are collected in a list of
`Effect`s returned next to the post-state.
-/

namespace WebRTCClient

/-- A media track (member of a `MediaStream`); `enabled` mirrors
`MediaStreamTrack.enabled`, used by the availability checks. -/
structure Track where
  trkId : Nat
  enabled : Bool
  deriving DecidableEq

/-- A `MediaStream` is modelled by its list of tracks
(`new MediaStream()` is `[]`, `addTrack` appends). -/
abbrev MediaStream := List Track

/-- A session description.  `createOffer`/`createAnswer` are opaque
platform capabilities; we model the description they produce by its kind
together with the identity of the connection that produced it. -/
inductive SDP where
  | offer (srcObjId : Nat)
  | answer (srcObjId : Nat)
  deriving DecidableEq

/-- An ICE candidate payload (`RTCIceCandidateInit`), opaque to the core. -/
structure RTCIceCandidateInit where
  candId : Nat
  deriving DecidableEq

/-- One mutating operation applied to a peer connection, recorded in the
order the component applied it (used to state facts such as "tracks were
attached before any description was set"). -/
inductive PCOp where
  | addTrack (t : Track)
  | setLocal (d : SDP)
  | setRemote (d : SDP)
  | addCandidate (c : RTCIceCandidateInit)
  deriving DecidableEq

/-- Model of an `RTCPeerConnection`.  `objId` is the heap identity of the
object; `wiringInstalls` counts how many times the event-callback set
(`onicecandidate` / `ontrack` / `onconnectionstatechange` / … ) was
installed on this object (the constructor path installs it once). -/
structure PeerConnection where
  objId : Nat
  tracks : List Track
  localDescription : Option SDP
  remoteDescription : Option SDP
  candidates : List RTCIceCandidateInit
  closed : Bool
  wiringInstalls : Nat
  ops : List PCOp
  deriving DecidableEq

/-- Model of `pc.addTrack(t)`. -/
def PeerConnection.addTrack (pc : PeerConnection) (t : Track) : PeerConnection :=
  { pc with tracks := pc.tracks ++ [t], ops := pc.ops ++ [PCOp.addTrack t] }

/-- Model of `pc.setLocalDescription(d)`. -/
def PeerConnection.setLocalDescription (pc : PeerConnection) (d : SDP) : PeerConnection :=
  { pc with localDescription := some d, ops := pc.ops ++ [PCOp.setLocal d] }

/-- Model of `pc.setRemoteDescription(d)`. -/
def PeerConnection.setRemoteDescription (pc : PeerConnection) (d : SDP) : PeerConnection :=
  { pc with remoteDescription := some d, ops := pc.ops ++ [PCOp.setRemote d] }

/-- Model of `pc.addIceCandidate(c)`. -/
def PeerConnection.addIceCandidate (pc : PeerConnection) (c : RTCIceCandidateInit) :
    PeerConnection :=
  { pc with candidates := pc.candidates ++ [c], ops := pc.ops ++ [PCOp.addCandidate c] }

/-- Model of `pc.close()`. -/
def PeerConnection.close (pc : PeerConnection) : PeerConnection :=
  { pc with closed := true }

/-- The `Offer` wire interface (`sdp`, `senderId`, `receiverId`); the
identifiers are nullable. -/
structure Offer where
  sdp : SDP
  senderId : Option String
  receiverId : Option String
  deriving DecidableEq

/-- The `Answer` wire interface. -/
structure Answer where
  sdp : SDP
  senderId : Option String
  receiverId : Option String
  deriving DecidableEq

/-- The `Candidate` wire interface. -/
structure Candidate where
  candidate : RTCIceCandidateInit
  senderId : Option String
  receiverId : Option String
  deriving DecidableEq

/-- The socket.io connection: its relay-assigned identifier and whether
`close()` has been called on it. -/
structure SocketState where
  sockId : String
  closed : Bool
  deriving DecidableEq

/-- Messages the component emits on the signaling channel. -/
inductive OutMsg where
  | createRoom (roomId : Nat)
  | joinRoom (roomId : Nat)
  | transferOffer (sdp : Option SDP) (senderId : Option String) (receiverId : Option String)
  | transferAnswer (sdp : Option SDP) (senderId : Option String) (receiverId : Option String)
  | transferCandidate (cand : RTCIceCandidateInit) (senderId : Option String)
      (receiverId : Option String)
  | removeConnection (remoteId : Option String)
  deriving DecidableEq

/-- Observable side effects other than state mutation. -/
inductive Effect where
  | emit (m : OutMsg)
  | closedConnection (objId : Nat)
  | stoppedTrack (t : Track)
  deriving DecidableEq

/-- The mutable fields of the `HomePage` component that the lifecycle
logic touches.  `nextObjId` is the supply of fresh heap identities. -/
structure HomePageState where
  peerConnectionMap : List (Option String × PeerConnection)
  targetUserStreamDataMap : List (Option String × MediaStream)
  localUserStreamData : Option MediaStream
  localVideoSrcObject : Option MediaStream
  nextObjId : Nat
  ioConnection : Option SocketState
  deriving DecidableEq

/-- JS `Map.get`. -/
def mapGet {α : Type} : List (Option String × α) → Option String → Option α
  | [], _ => none
  | kv :: rest, k => if kv.1 = k then some kv.2 else mapGet rest k

/-- JS `Map.has` (also: `Map.get(k) != null`). -/
def mapContains {α : Type} (m : List (Option String × α)) (k : Option String) : Bool :=
  (mapGet m k).isSome

/-- JS `Map.set`: update the existing entry in place, else append. -/
def mapSet {α : Type} : List (Option String × α) → Option String → α →
    List (Option String × α)
  | [], k, v => [(k, v)]
  | kv :: rest, k, v => if kv.1 = k then (k, v) :: rest else kv :: mapSet rest k v

/-- JS `Map.delete`. -/
def mapDelete {α : Type} : List (Option String × α) → Option String →
    List (Option String × α)
  | [], _ => []
  | kv :: rest, k => if kv.1 = k then mapDelete rest k else kv :: mapDelete rest k

/-- JS `Array.from(map.keys())`. -/
def mapKeys {α : Type} (m : List (Option String × α)) : List (Option String) :=
  m.map Prod.fst

/-- The tracks of `this.localVideo.nativeElement.srcObject`
(empty when it is not a `MediaStream`). -/
def localTracks (st : HomePageState) : List Track :=
  st.localVideoSrcObject.getD []

/-- The guarded attachment loop appearing in both the `on-received-offer`
handler and `sendOffers`:
`if (srcObject != null && srcObject instanceof MediaStream)
   srcObject.getTracks().forEach(t => pc.addTrack(t))`. -/
def attachLocalTracks (st : HomePageState) (pc : PeerConnection) : PeerConnection :=
  match st.localVideoSrcObject with
  | some ms => ms.foldl PeerConnection.addTrack pc
  | none => pc

/-- Model of the opaque platform capability `pc.createOffer(options)`. -/
def createOffer (pc : PeerConnection) : SDP :=
  SDP.offer pc.objId

/-- Model of the opaque platform capability `pc.createAnswer(options)`. -/
def createAnswer (pc : PeerConnection) : SDP :=
  SDP.answer pc.objId

/-- Model of `this.ioConnection.id`, the sender identifier placed in emitted
messages. -/
def socketSenderId (st : HomePageState) : Option String :=
  st.ioConnection.map SocketState.sockId

/-- Translation of `HomePage.getOrCreatePeerConnection(remoteId)`.  Note that the lookup
is guarded by `remoteId != null`: with a `null` identifier a fresh
connection is always created and registered under the `null` key. -/
def getOrCreatePeerConnection (remoteId : Option String) (st : HomePageState) :
    PeerConnection × HomePageState :=
  match (if remoteId.isSome then mapGet st.peerConnectionMap remoteId else none) with
  | some pc => (pc, st)
  | none =>
    let newPeerConnection : PeerConnection :=
      { objId := st.nextObjId, tracks := [], localDescription := none,
        remoteDescription := none, candidates := [], closed := false,
        wiringInstalls := 1, ops := [] }
    (newPeerConnection,
      { st with
          peerConnectionMap := mapSet st.peerConnectionMap remoteId newPeerConnection,
          nextObjId := st.nextObjId + 1 })

/-- The body of the `userIds.forEach(async value => …)` loop inside
`HomePage.sendOffers`, for one identifier. -/
def sendOffer1 (st : HomePageState) (value : Option String) :
    HomePageState × List Effect :=
  let r := getOrCreatePeerConnection value st
  let pc1 := attachLocalTracks r.2 r.1
  let pc2 := pc1.setLocalDescription (createOffer pc1)
  let st2 := { r.2 with peerConnectionMap := mapSet r.2.peerConnectionMap value pc2 }
  (st2, [Effect.emit (OutMsg.transferOffer pc2.localDescription (socketSenderId st2) value)])

/-- Sequentialisation of the `forEach` loop of `HomePage.sendOffers`. -/
def sendOffersAux : List (Option String) → HomePageState → HomePageState × List Effect
  | [], st => (st, [])
  | v :: vs, st =>
    let r := sendOffer1 st v
    let rest := sendOffersAux vs r.1
    (rest.1, r.2 ++ rest.2)

/-- Translation of `HomePage.sendOffers(userIds)` (guard: `if (ioConnection == null) return`). -/
def sendOffers (userIds : List (Option String)) (st : HomePageState) :
    HomePageState × List Effect :=
  match st.ioConnection with
  | none => (st, [])
  | some _ => sendOffersAux userIds st

/-- The `on-received-offer` socket handler. -/
def onReceivedOfferHandler (offer : Offer) (st : HomePageState) :
    HomePageState × List Effect :=
  let r := getOrCreatePeerConnection offer.senderId st
  let pc1 := attachLocalTracks r.2 r.1
  let pc2 := pc1.setRemoteDescription offer.sdp
  let pc3 := pc2.setLocalDescription (createAnswer pc2)
  let st2 := { r.2 with peerConnectionMap := mapSet r.2.peerConnectionMap offer.senderId pc3 }
  (st2,
   [Effect.emit (OutMsg.transferAnswer pc3.localDescription (socketSenderId st2)
      offer.senderId)])

/-- The `on-received-answer` socket handler. -/
def onReceivedAnswerHandler (answer : Answer) (st : HomePageState) :
    HomePageState × List Effect :=
  let r := getOrCreatePeerConnection answer.senderId st
  let pc1 := r.1.setRemoteDescription answer.sdp
  ({ r.2 with peerConnectionMap := mapSet r.2.peerConnectionMap answer.senderId pc1 }, [])

/-- The `on-received-candidate` socket handler. -/
def onReceivedCandidateHandler (cand : Candidate) (st : HomePageState) :
    HomePageState × List Effect :=
  let r := getOrCreatePeerConnection cand.senderId st
  let pc1 := r.1.addIceCandidate cand.candidate
  ({ r.2 with peerConnectionMap := mapSet r.2.peerConnectionMap cand.senderId pc1 }, [])

/-- Translation of `HomePage.removePeerConnection(remoteId)`. -/
def removePeerConnection (remoteId : Option String) (st : HomePageState) :
    HomePageState × List Effect :=
  match remoteId with
  | none => (st, [])
  | some _ =>
    match mapGet st.peerConnectionMap remoteId with
    | some pc =>
      ({ st with peerConnectionMap := mapDelete st.peerConnectionMap remoteId },
       [Effect.closedConnection pc.objId])
    | none =>
      ({ st with peerConnectionMap := mapDelete st.peerConnectionMap remoteId }, [])

/-- Translation of `HomePage.removeStream(remoteId)`. -/
def removeStream (remoteId : Option String) (st : HomePageState) :
    HomePageState × List Effect :=
  match remoteId with
  | none => (st, [])
  | some _ =>
    match mapGet st.targetUserStreamDataMap remoteId with
    | some ms =>
      ({ st with targetUserStreamDataMap := mapDelete st.targetUserStreamDataMap remoteId },
       ms.map Effect.stoppedTrack)
    | none =>
      ({ st with targetUserStreamDataMap := mapDelete st.targetUserStreamDataMap remoteId },
       [])

/-- Translation of `HomePage.removeAllPeerConnection`: copies the map values into an
array and `close()`s each (popping from the end); the map itself is left
untouched. -/
def removeAllPeerConnection (st : HomePageState) : HomePageState × List Effect :=
  ({ st with
      peerConnectionMap := st.peerConnectionMap.map (fun kv => (kv.1, kv.2.close)) },
   st.peerConnectionMap.reverse.map (fun kv => Effect.closedConnection kv.2.objId))

/-- Translation of `HomePage.removeAllCurrentConnection`: emits `remove-connection` for
every registered key; no local state change. -/
def removeAllCurrentConnection (st : HomePageState) : HomePageState × List Effect :=
  match st.ioConnection with
  | none => (st, [])
  | some _ =>
    (st, st.peerConnectionMap.map (fun kv => Effect.emit (OutMsg.removeConnection kv.1)))

/-- The two assignments at the top of `HomePage.getUserStreamData`:
store the acquired stream and publish it to the local video element. -/
def refreshLocal (newStream : MediaStream) (st : HomePageState) : HomePageState :=
  { st with
      localUserStreamData := some newStream,
      localVideoSrcObject := some newStream }

/-- Translation of `HomePage.getUserStreamData`: acquire a new local stream (modelled as
the parameter `newStream`), publish it to the video element, and if peer
connections already exist, notify the relay and resend offers to the same
identifier set. -/
def getUserStreamData (newStream : MediaStream) (st : HomePageState) :
    HomePageState × List Effect :=
  let st1 := refreshLocal newStream st
  if st1.peerConnectionMap.length > 0 then
    let userIds := mapKeys st1.peerConnectionMap
    let r1 := removeAllCurrentConnection st1
    let r2 := sendOffers userIds r1.1
    (r2.1, r1.2 ++ r2.2)
  else
    (st1, [])

/-- Translation of `HomePage.ngOnDestroy`: close every connection, stop every remote
stream track, clear both maps, close the socket. -/
def ngOnDestroyFn (st : HomePageState) : HomePageState × List Effect :=
  ({ st with
      peerConnectionMap := [],
      targetUserStreamDataMap := [],
      ioConnection := st.ioConnection.map (fun s => { s with closed := true }) },
   st.peerConnectionMap.map (fun kv => Effect.closedConnection kv.2.objId)
     ++ (st.targetUserStreamDataMap.foldr
           (fun kv acc => kv.2.map Effect.stoppedTrack ++ acc) []))

/-- The `ontrack` closure installed on each connection at creation: append
the track to the stream registered for that connection's remote
identifier, creating the stream if needed. -/
def ontrackHandler (remoteId : Option String) (track : Track) (st : HomePageState) :
    HomePageState :=
  let item := (mapGet st.targetUserStreamDataMap remoteId).getD []
  { st with
      targetUserStreamDataMap :=
        mapSet st.targetUserStreamDataMap remoteId (item ++ [track]) }

/-- The events delivered to the component: the socket handlers registered
in `ngOnInit`, the `ontrack` callback firing, a local-stream refresh
(`getUserStreamData` completing with a freshly acquired stream), and
`ngOnDestroy`. -/
inductive Event where
  | onCreate (roomId : Nat)
  | onJoin (userIds : Option (List (Option String)))
  | receivedOffer (o : Offer)
  | receivedAnswer (a : Answer)
  | receivedCandidate (c : Candidate)
  | userDisconnect (remoteId : Option String)
  | channelDisconnect
  | trackArrived (remoteId : Option String) (t : Track)
  | localStreamRefresh (ms : MediaStream)
  | destroy
  deriving DecidableEq

/-- One event-handler execution.  `trackArrived` is gated on the
connection being registered and not closed: the `ontrack` callback belongs
to a live `RTCPeerConnection`, and every path that unregisters a
connection closes it first, while a closed connection fires no events. -/
def step (st : HomePageState) (e : Event) : HomePageState × List Effect :=
  match e with
  | Event.onCreate _ => (st, [])
  | Event.onJoin none => (st, [Effect.emit (OutMsg.createRoom 1)])
  | Event.onJoin (some userIds) => sendOffers userIds st
  | Event.receivedOffer o => onReceivedOfferHandler o st
  | Event.receivedAnswer a => onReceivedAnswerHandler a st
  | Event.receivedCandidate c => onReceivedCandidateHandler c st
  | Event.userDisconnect remoteId =>
    let r1 := removePeerConnection remoteId st
    let r2 := removeStream remoteId r1.1
    (r2.1, r1.2 ++ r2.2)
  | Event.channelDisconnect => removeAllPeerConnection st
  | Event.trackArrived remoteId t =>
    match mapGet st.peerConnectionMap remoteId with
    | some pc => if pc.closed then (st, []) else (ontrackHandler remoteId t st, [])
    | none => (st, [])
  | Event.localStreamRefresh ms => getUserStreamData ms st
  | Event.destroy => ngOnDestroyFn st

/-- The component state right after `ngOnInit` created the socket. -/
def initState : HomePageState :=
  { peerConnectionMap := [], targetUserStreamDataMap := [],
    localUserStreamData := none, localVideoSrcObject := none,
    nextObjId := 0, ioConnection := some { sockId := "self", closed := false } }

/-- Run a list of events from a given state (effects discarded). -/
def runFrom (st : HomePageState) : List Event → HomePageState
  | [] => st
  | e :: es => runFrom (step st e).1 es

/-- Run a list of events from the initial state. -/
def run (es : List Event) : HomePageState :=
  runFrom initState es

/-- The error classes of `home.page.error.ts`. -/
inductive RTCErrorKind where
  | rtcNotSupported
  | rtcNoAvailableCamera
  | rtcNoAvailableMicrophone
  deriving DecidableEq

/-- Translation of `HomePage.checkWebRTCAvailability` (web path).  `videoStream` /
`audioStream` are the results of the two `getUserMedia` calls (`none`
models acquisition failure caught as `undefined`).  The video condition
transcribes `!videoStream?.getTracks().some(v => v != null && !v.enabled)
|| !DetectRTC.hasWebcam` and the audio condition
`!audioStream?.getTracks().some(v => v != null && v.enabled)
|| !DetectRTC.hasMicrophone`. -/
def checkWebRTCAvailability (isWebRTCSupported hasWebcam hasMicrophone : Bool)
    (videoStream audioStream : Option MediaStream) : Except RTCErrorKind Unit :=
  if !isWebRTCSupported then Except.error RTCErrorKind.rtcNotSupported
  else if !(match videoStream with
            | some ts => ts.any (fun v => !v.enabled)
            | none => false) || !hasWebcam then
    Except.error RTCErrorKind.rtcNoAvailableCamera
  else if !(match audioStream with
            | some ts => ts.any (fun v => v.enabled)
            | none => false) || !hasMicrophone then
    Except.error RTCErrorKind.rtcNoAvailableMicrophone
  else Except.ok ()

/-- Is this operation a `setLocalDescription` or `setRemoteDescription`? -/
def isSetDescriptionOp : PCOp → Bool
  | PCOp.setLocal _ => true
  | PCOp.setRemote _ => true
  | _ => false

/-- Is this operation an `addTrack`? -/
def isAddTrackOp : PCOp → Bool
  | PCOp.addTrack _ => true
  | _ => false

/-- Every `addTrack` in the operation log precedes every
description-setting operation: no `addTrack` occurs at or after the first
`set{Local,Remote}Description`. -/
def tracksBeforeDescriptions (l : List PCOp) : Bool :=
  ((l.dropWhile (fun o => !isSetDescriptionOp o)).filter isAddTrackOp).isEmpty

/-- The keyset-consistency invariant of the spec: every key of the Remote
Stream Registry is a key of the Peer Session Registry. -/
def streamSubset (st : HomePageState) : Prop :=
  ∀ k, k ∈ mapKeys st.targetUserStreamDataMap → k ∈ mapKeys st.peerConnectionMap

/-- A concrete enabled track, used in concrete scenarios. -/
def trackA : Track :=
  { trkId := 10, enabled := true }

/-- A concrete idle peer connection with object identity 5. -/
def pcB : PeerConnection :=
  { objId := 5, tracks := [], localDescription := none, remoteDescription := none,
    candidates := [], closed := false, wiringInstalls := 1, ops := [] }

/-- A concrete state holding one peer session and one remote stream, both
registered for participant "B". -/
def stOneSession : HomePageState :=
  { peerConnectionMap := [(some "B", pcB)],
    targetUserStreamDataMap := [(some "B", [trackA])],
    localUserStreamData := none, localVideoSrcObject := none,
    nextObjId := 6, ioConnection := some { sockId := "self", closed := false } }

/-- A concrete inbound offer from sender "C". -/
def offerFromC : Offer :=
  { sdp := SDP.offer 42, senderId := some "C", receiverId := some "self" }

/-- A concrete inbound offer whose sender identifier is missing. -/
def offerNullSender : Offer :=
  { sdp := SDP.offer 99, senderId := none, receiverId := some "self" }

/-- A concrete inbound answer whose sender identifier is missing. -/
def answerNullSender : Answer :=
  { sdp := SDP.answer 99, senderId := none, receiverId := some "self" }

/-- A concrete inbound candidate message whose sender identifier is missing. -/
def candidateNullSender : Candidate :=
  { candidate := { candId := 7 }, senderId := none, receiverId := some "self" }

section MapLemmas

variable {α : Type}

theorem mapGet_set_self (m : List (Option String × α)) (k : Option String) (v : α) :
    mapGet (mapSet m k v) k = some v := by
  induction m with
  | nil => simp [mapSet, mapGet]
  | cons kv rest ih =>
    obtain ⟨k1, v1⟩ := kv
    by_cases h : k1 = k
    · subst h
      simp [mapSet, mapGet]
    · simp [mapSet, mapGet, h, ih]

theorem mapGet_set_ne (m : List (Option String × α)) (k k' : Option String) (v : α)
    (h : k' ≠ k) : mapGet (mapSet m k v) k' = mapGet m k' := by
  induction m with
  | nil => simp [mapSet, mapGet, Ne.symm h]
  | cons kv rest ih =>
    obtain ⟨k1, v1⟩ := kv
    by_cases hk : k1 = k
    · subst hk
      simp [mapSet, mapGet, Ne.symm h]
    · by_cases hk' : k1 = k'
      · subst hk'
        simp [mapSet, mapGet, hk]
      · simp [mapSet, mapGet, hk, hk', ih]

theorem mapGet_delete_self (m : List (Option String × α)) (k : Option String) :
    mapGet (mapDelete m k) k = none := by
  induction m with
  | nil => simp [mapDelete, mapGet]
  | cons kv rest ih =>
    obtain ⟨k1, v1⟩ := kv
    by_cases h : k1 = k
    · simp [mapDelete, h, ih]
    · simp [mapDelete, mapGet, h, ih]

theorem mapGet_delete_ne (m : List (Option String × α)) (k k' : Option String)
    (h : k' ≠ k) : mapGet (mapDelete m k) k' = mapGet m k' := by
  induction m with
  | nil => simp [mapDelete]
  | cons kv rest ih =>
    obtain ⟨k1, v1⟩ := kv
    by_cases hk : k1 = k
    · subst hk
      simp [mapDelete, mapGet, Ne.symm h, ih]
    · simp [mapDelete, mapGet, hk, ih]

theorem mapDelete_of_get_none (m : List (Option String × α)) (k : Option String)
    (h : mapGet m k = none) : mapDelete m k = m := by
  induction m with
  | nil => simp [mapDelete]
  | cons kv rest ih =>
    obtain ⟨k1, v1⟩ := kv
    by_cases hk : k1 = k
    · simp [mapGet, hk] at h
    · simp [mapGet, hk] at h
      simp [mapDelete, hk, ih h]

theorem mapKeys_nil : mapKeys ([] : List (Option String × α)) = [] := rfl

theorem mapKeys_cons (kv : Option String × α) (rest : List (Option String × α)) :
    mapKeys (kv :: rest) = kv.1 :: mapKeys rest := rfl

theorem mem_keys_of_get_some {m : List (Option String × α)} {k : Option String} {v : α}
    (h : mapGet m k = some v) : k ∈ mapKeys m := by
  induction m with
  | nil => simp [mapGet] at h
  | cons kv rest ih =>
    obtain ⟨k1, v1⟩ := kv
    by_cases hk : k1 = k
    · subst hk
      simp [mapKeys_cons]
    · simp [mapGet, hk] at h
      simp [mapKeys_cons]
      exact Or.inr (ih h)

theorem get_isSome_of_mem_keys {m : List (Option String × α)} {k : Option String}
    (h : k ∈ mapKeys m) : (mapGet m k).isSome = true := by
  induction m with
  | nil => simp [mapKeys_nil] at h
  | cons kv rest ih =>
    obtain ⟨k1, v1⟩ := kv
    by_cases hk : k1 = k
    · simp [mapGet, hk]
    · simp [mapKeys_cons, List.mem_cons] at h
      rcases h with h | h
      · exact absurd h.symm hk
      · simpa [mapGet, hk] using ih h

theorem mem_keys_mapSet_iff (m : List (Option String × α)) (k k' : Option String) (v : α) :
    k' ∈ mapKeys (mapSet m k v) ↔ k' ∈ mapKeys m ∨ k' = k := by
  induction m with
  | nil =>
    simp [mapSet, mapKeys_cons, mapKeys_nil]
  | cons kv rest ih =>
    obtain ⟨k1, v1⟩ := kv
    by_cases hk : k1 = k
    · subst hk
      simp [mapSet, mapKeys_cons, List.mem_cons]
      tauto
    · simp [mapSet, hk, mapKeys_cons, List.mem_cons, ih]
      tauto

theorem mem_keys_mapDelete_iff (m : List (Option String × α)) (k k' : Option String) :
    k' ∈ mapKeys (mapDelete m k) ↔ k' ∈ mapKeys m ∧ k' ≠ k := by
  induction m with
  | nil => simp [mapDelete, mapKeys_nil]
  | cons kv rest ih =>
    obtain ⟨k1, v1⟩ := kv
    by_cases hk : k1 = k
    · subst hk
      simp [mapDelete, ih, mapKeys_cons, List.mem_cons]
      tauto
    · simp [mapDelete, hk, mapKeys_cons, List.mem_cons, ih]
      constructor
      · rintro (h | ⟨h1, h2⟩)
        · exact ⟨Or.inl h, by rintro rfl; exact hk h.symm⟩
        · exact ⟨Or.inr h1, h2⟩
      · rintro ⟨h1 | h1, h2⟩
        · exact Or.inl h1
        · exact Or.inr ⟨h1, h2⟩

theorem keys_map_values (m : List (Option String × α)) (f : α → α) :
    mapKeys (m.map (fun kv => (kv.1, f kv.2))) = mapKeys m := by
  induction m with
  | nil => rfl
  | cons kv rest ih =>
    rw [List.map_cons, mapKeys_cons, mapKeys_cons, ih]

theorem filter_key_of_get_none (m : List (Option String × α)) (k : Option String)
    (h : mapGet m k = none) : m.filter (fun kv => decide (kv.1 = k)) = [] := by
  induction m with
  | nil => rfl
  | cons kv rest ih =>
    obtain ⟨k1, v1⟩ := kv
    by_cases hk : k1 = k
    · simp [mapGet, hk] at h
    · simp [mapGet, hk] at h
      simp [List.filter, hk, ih h]

theorem filter_key_of_nodup (m : List (Option String × α)) (k : Option String)
    (hnd : (mapKeys m).Nodup) (h : (mapGet m k).isSome = true) :
    (m.filter (fun kv => decide (kv.1 = k))).length = 1 := by
  induction m with
  | nil => simp [mapGet] at h
  | cons kv rest ih =>
    obtain ⟨k1, v1⟩ := kv
    rw [mapKeys_cons, List.nodup_cons] at hnd
    by_cases hk : k1 = k
    · subst hk
      have hget : mapGet rest k1 = none := by
        cases hg : mapGet rest k1 with
        | none => rfl
        | some v => exact absurd (mem_keys_of_get_some hg) hnd.1
      simp [List.filter, filter_key_of_get_none rest k1 hget]
    · simp [mapGet, hk] at h
      simp [List.filter, hk, ih hnd.2 h]

theorem filter_key_set_of_get_none (m : List (Option String × α)) (k : Option String)
    (v : α) (h : mapGet m k = none) :
    (mapSet m k v).filter (fun kv => decide (kv.1 = k)) = [(k, v)] := by
  induction m with
  | nil => simp [mapSet, List.filter]
  | cons kv rest ih =>
    obtain ⟨k1, v1⟩ := kv
    by_cases hk : k1 = k
    · simp [mapGet, hk] at h
    · simp [mapGet, hk] at h
      simp [mapSet, List.filter, hk, ih h]

theorem mem_keys_of_get_isSome {m : List (Option String × α)} {k : Option String}
    (h : (mapGet m k).isSome = true) : k ∈ mapKeys m := by
  cases hg : mapGet m k with
  | none => rw [hg] at h; cases h
  | some v => exact mem_keys_of_get_some hg

end MapLemmas

section SendOfferLemmas

theorem foldl_addTrack_char (ts : List Track) (pc : PeerConnection) :
    ts.foldl PeerConnection.addTrack pc =
      { pc with tracks := pc.tracks ++ ts, ops := pc.ops ++ ts.map PCOp.addTrack } := by
  induction ts generalizing pc with
  | nil => simp
  | cons t ts ih =>
    rw [List.foldl_cons, ih]
    simp [PeerConnection.addTrack]

theorem attachLocalTracks_char (st : HomePageState) (pc : PeerConnection) :
    attachLocalTracks st pc =
      { pc with tracks := pc.tracks ++ localTracks st,
                ops := pc.ops ++ (localTracks st).map PCOp.addTrack } := by
  cases h : st.localVideoSrcObject with
  | none => simp [attachLocalTracks, localTracks, h]
  | some ms => simp [attachLocalTracks, localTracks, h, foldl_addTrack_char]

theorem sendOffer1_frame (st : HomePageState) (v : Option String) :
    (sendOffer1 st v).1.targetUserStreamDataMap = st.targetUserStreamDataMap ∧
    (sendOffer1 st v).1.ioConnection = st.ioConnection ∧
    (sendOffer1 st v).1.localVideoSrcObject = st.localVideoSrcObject := by
  unfold sendOffer1 getOrCreatePeerConnection
  cases hs : (if v.isSome then mapGet st.peerConnectionMap v else none) <;> simp

theorem sendOffer1_get_self_isSome (st : HomePageState) (v : Option String) :
    (mapGet (sendOffer1 st v).1.peerConnectionMap v).isSome = true := by
  unfold sendOffer1
  simp [mapGet_set_self]

theorem sendOffer1_get_ne (st : HomePageState) (v k : Option String) (h : k ≠ v) :
    mapGet (sendOffer1 st v).1.peerConnectionMap k = mapGet st.peerConnectionMap k := by
  unfold sendOffer1 getOrCreatePeerConnection
  cases hs : (if v.isSome then mapGet st.peerConnectionMap v else none) with
  | some pc => simp [mapGet_set_ne _ _ _ _ h]
  | none => simp [mapGet_set_ne _ _ _ _ h]

theorem sendOffer1_contains_mono (st : HomePageState) (v k : Option String)
    (h : (mapGet st.peerConnectionMap k).isSome = true) :
    (mapGet (sendOffer1 st v).1.peerConnectionMap k).isSome = true := by
  by_cases hk : k = v
  · subst hk
    exact sendOffer1_get_self_isSome st k
  · rw [sendOffer1_get_ne st v k hk]
    exact h

theorem sendOffer1_existing (st : HomePageState) (k : Option String) (pc : PeerConnection)
    (hsome : k.isSome = true) (hget : mapGet st.peerConnectionMap k = some pc) :
    mapGet (sendOffer1 st k).1.peerConnectionMap k =
      some { pc with
               tracks := pc.tracks ++ localTracks st,
               localDescription := some (SDP.offer pc.objId),
               ops := pc.ops ++ (localTracks st).map PCOp.addTrack ++
                      [PCOp.setLocal (SDP.offer pc.objId)] } := by
  unfold sendOffer1 getOrCreatePeerConnection
  simp [hsome, hget, attachLocalTracks_char, PeerConnection.setLocalDescription,
        createOffer, mapGet_set_self, List.append_assoc]

theorem sendOffer1_fresh (st : HomePageState) (k : Option String)
    (hget : mapGet st.peerConnectionMap k = none) :
    mapGet (sendOffer1 st k).1.peerConnectionMap k =
      some { objId := st.nextObjId,
             tracks := localTracks st,
             localDescription := some (SDP.offer st.nextObjId),
             remoteDescription := none, candidates := [], closed := false,
             wiringInstalls := 1,
             ops := (localTracks st).map PCOp.addTrack ++
                    [PCOp.setLocal (SDP.offer st.nextObjId)] } := by
  have hs : (if k.isSome then mapGet st.peerConnectionMap k else none) = none := by
    cases k.isSome <;> simp [hget]
  unfold sendOffer1 getOrCreatePeerConnection
  simp [hs, attachLocalTracks_char, PeerConnection.setLocalDescription,
        createOffer, mapGet_set_self, localTracks]

theorem sendOffer1_effects (st : HomePageState) (v : Option String) :
    ∃ d, (sendOffer1 st v).2 =
      [Effect.emit (OutMsg.transferOffer (some d) (socketSenderId st) v)] := by
  unfold sendOffer1 getOrCreatePeerConnection
  cases hs : (if v.isSome then mapGet st.peerConnectionMap v else none) with
  | some pc =>
    exact ⟨_, by simp [PeerConnection.setLocalDescription, socketSenderId]; rfl⟩
  | none =>
    exact ⟨_, by simp [PeerConnection.setLocalDescription, socketSenderId]; rfl⟩

theorem sendOffersAux_frame (ids : List (Option String)) (st : HomePageState) :
    (sendOffersAux ids st).1.targetUserStreamDataMap = st.targetUserStreamDataMap ∧
    (sendOffersAux ids st).1.ioConnection = st.ioConnection ∧
    (sendOffersAux ids st).1.localVideoSrcObject = st.localVideoSrcObject := by
  induction ids generalizing st with
  | nil => exact ⟨rfl, rfl, rfl⟩
  | cons v vs ih =>
    have h1 := sendOffer1_frame st v
    have h2 := ih (sendOffer1 st v).1
    simp only [sendOffersAux]
    exact ⟨h2.1.trans h1.1, h2.2.1.trans h1.2.1, h2.2.2.trans h1.2.2⟩

theorem sendOffersAux_localTracks (ids : List (Option String)) (st : HomePageState) :
    localTracks (sendOffersAux ids st).1 = localTracks st := by
  simp [localTracks, (sendOffersAux_frame ids st).2.2]

theorem sendOffer1_localTracks (st : HomePageState) (v : Option String) :
    localTracks (sendOffer1 st v).1 = localTracks st := by
  simp [localTracks, (sendOffer1_frame st v).2.2]

theorem sendOffersAux_get_not_mem (ids : List (Option String)) (st : HomePageState)
    (k : Option String) (h : k ∉ ids) :
    mapGet (sendOffersAux ids st).1.peerConnectionMap k = mapGet st.peerConnectionMap k := by
  induction ids generalizing st with
  | nil => rfl
  | cons v vs ih =>
    simp only [sendOffersAux]
    rw [ih _ (fun hm => h (List.mem_cons_of_mem _ hm)),
        sendOffer1_get_ne st v k (fun he => h (he ▸ List.mem_cons_self _ _))]

theorem sendOffersAux_contains_mono (ids : List (Option String)) (st : HomePageState)
    (k : Option String) (h : (mapGet st.peerConnectionMap k).isSome = true) :
    (mapGet (sendOffersAux ids st).1.peerConnectionMap k).isSome = true := by
  induction ids generalizing st with
  | nil => exact h
  | cons v vs ih =>
    simp only [sendOffersAux]
    exact ih _ (sendOffer1_contains_mono st v k h)

theorem sendOffersAux_mem_contains (ids : List (Option String)) (st : HomePageState)
    (k : Option String) (h : k ∈ ids) :
    (mapGet (sendOffersAux ids st).1.peerConnectionMap k).isSome = true := by
  induction ids generalizing st with
  | nil => cases h
  | cons v vs ih =>
    simp only [sendOffersAux]
    rcases List.mem_cons.mp h with rfl | hm
    · exact sendOffersAux_contains_mono vs _ k (sendOffer1_get_self_isSome st k)
    · exact ih _ hm

theorem sendOffersAux_existing (ids : List (Option String)) (st : HomePageState)
    (k : Option String) (pc : PeerConnection) (hnd : ids.Nodup) (hmem : k ∈ ids)
    (hsome : k.isSome = true) (hget : mapGet st.peerConnectionMap k = some pc) :
    mapGet (sendOffersAux ids st).1.peerConnectionMap k =
      some { pc with
               tracks := pc.tracks ++ localTracks st,
               localDescription := some (SDP.offer pc.objId),
               ops := pc.ops ++ (localTracks st).map PCOp.addTrack ++
                      [PCOp.setLocal (SDP.offer pc.objId)] } := by
  induction ids generalizing st with
  | nil => cases hmem
  | cons v vs ih =>
    simp only [sendOffersAux]
    rcases List.mem_cons.mp hmem with rfl | hm
    · have hknotvs : k ∉ vs := (List.nodup_cons.mp hnd).1
      rw [sendOffersAux_get_not_mem vs _ k hknotvs]
      exact sendOffer1_existing st k pc hsome hget
    · have hvnek : k ≠ v := by
        rintro rfl
        exact (List.nodup_cons.mp hnd).1 hm
      have hget' : mapGet (sendOffer1 st v).1.peerConnectionMap k = some pc := by
        rw [sendOffer1_get_ne st v k hvnek]
        exact hget
      have := ih (sendOffer1 st v).1 (List.nodup_cons.mp hnd).2 hm hget'
      rwa [sendOffer1_localTracks st v] at this

theorem sendOffersAux_fresh (ids : List (Option String)) (st : HomePageState)
    (k : Option String) (hnd : ids.Nodup) (hmem : k ∈ ids)
    (hget : mapGet st.peerConnectionMap k = none) :
    ∃ pc, mapGet (sendOffersAux ids st).1.peerConnectionMap k = some pc ∧
      pc.ops = (localTracks st).map PCOp.addTrack ++
               [PCOp.setLocal (SDP.offer pc.objId)] := by
  induction ids generalizing st with
  | nil => cases hmem
  | cons v vs ih =>
    simp only [sendOffersAux]
    rcases List.mem_cons.mp hmem with rfl | hm
    · have hknotvs : k ∉ vs := (List.nodup_cons.mp hnd).1
      rw [sendOffersAux_get_not_mem vs _ k hknotvs, sendOffer1_fresh st k hget]
      exact ⟨_, rfl, rfl⟩
    · have hvnek : k ≠ v := by
        rintro rfl
        exact (List.nodup_cons.mp hnd).1 hm
      have hget' : mapGet (sendOffer1 st v).1.peerConnectionMap k = none := by
        rw [sendOffer1_get_ne st v k hvnek]
        exact hget
      obtain ⟨pc, h1, h2⟩ := ih (sendOffer1 st v).1 (List.nodup_cons.mp hnd).2 hm hget'
      rw [sendOffer1_localTracks st v] at h2
      exact ⟨pc, h1, h2⟩

theorem sendOffersAux_effects (ids : List (Option String)) (st : HomePageState)
    (k : Option String) (hmem : k ∈ ids) :
    ∃ d sid, Effect.emit (OutMsg.transferOffer (some d) sid k) ∈ (sendOffersAux ids st).2 := by
  induction ids generalizing st with
  | nil => cases hmem
  | cons v vs ih =>
    simp only [sendOffersAux]
    rcases List.mem_cons.mp hmem with rfl | hm
    · obtain ⟨d, hd⟩ := sendOffer1_effects st k
      refine ⟨d, socketSenderId st, List.mem_append_left _ ?_⟩
      rw [hd]
      exact List.mem_singleton.mpr rfl
    · obtain ⟨d, sid, hmm⟩ := ih (sendOffer1 st v).1 hm
      exact ⟨d, sid, List.mem_append_right _ hmm⟩

end SendOfferLemmas

section HandlerLemmas

theorem onReceivedOffer_target (o : Offer) (st : HomePageState) :
    (onReceivedOfferHandler o st).1.targetUserStreamDataMap = st.targetUserStreamDataMap := by
  unfold onReceivedOfferHandler getOrCreatePeerConnection
  cases hs : (if o.senderId.isSome then mapGet st.peerConnectionMap o.senderId else none) <;>
    simp

theorem onReceivedAnswer_target (a : Answer) (st : HomePageState) :
    (onReceivedAnswerHandler a st).1.targetUserStreamDataMap = st.targetUserStreamDataMap := by
  unfold onReceivedAnswerHandler getOrCreatePeerConnection
  cases hs : (if a.senderId.isSome then mapGet st.peerConnectionMap a.senderId else none) <;>
    simp

theorem onReceivedCandidate_target (c : Candidate) (st : HomePageState) :
    (onReceivedCandidateHandler c st).1.targetUserStreamDataMap =
      st.targetUserStreamDataMap := by
  unfold onReceivedCandidateHandler getOrCreatePeerConnection
  cases hs : (if c.senderId.isSome then mapGet st.peerConnectionMap c.senderId else none) <;>
    simp

theorem onReceivedOffer_keys_mono (o : Offer) (st : HomePageState) (k : Option String)
    (h : k ∈ mapKeys st.peerConnectionMap) :
    k ∈ mapKeys (onReceivedOfferHandler o st).1.peerConnectionMap := by
  unfold onReceivedOfferHandler getOrCreatePeerConnection
  cases hs : (if o.senderId.isSome then mapGet st.peerConnectionMap o.senderId else none) <;>
    simp [mem_keys_mapSet_iff] <;> tauto

theorem onReceivedAnswer_keys_mono (a : Answer) (st : HomePageState) (k : Option String)
    (h : k ∈ mapKeys st.peerConnectionMap) :
    k ∈ mapKeys (onReceivedAnswerHandler a st).1.peerConnectionMap := by
  unfold onReceivedAnswerHandler getOrCreatePeerConnection
  cases hs : (if a.senderId.isSome then mapGet st.peerConnectionMap a.senderId else none) <;>
    simp [mem_keys_mapSet_iff] <;> tauto

theorem onReceivedCandidate_keys_mono (c : Candidate) (st : HomePageState)
    (k : Option String) (h : k ∈ mapKeys st.peerConnectionMap) :
    k ∈ mapKeys (onReceivedCandidateHandler c st).1.peerConnectionMap := by
  unfold onReceivedCandidateHandler getOrCreatePeerConnection
  cases hs : (if c.senderId.isSome then mapGet st.peerConnectionMap c.senderId else none) <;>
    simp [mem_keys_mapSet_iff] <;> tauto

theorem removePeerConnection_state (rid : String) (st : HomePageState) :
    (removePeerConnection (some rid) st).1 =
      { st with peerConnectionMap := mapDelete st.peerConnectionMap (some rid) } := by
  unfold removePeerConnection
  cases mapGet st.peerConnectionMap (some rid) <;> rfl

theorem removeStream_state (rid : String) (st : HomePageState) :
    (removeStream (some rid) st).1 =
      { st with targetUserStreamDataMap := mapDelete st.targetUserStreamDataMap (some rid) } := by
  unfold removeStream
  cases mapGet st.targetUserStreamDataMap (some rid) <;> rfl

theorem removeAllCurrentConnection_state (st : HomePageState) :
    (removeAllCurrentConnection st).1 = st := by
  unfold removeAllCurrentConnection
  cases st.ioConnection <;> rfl

theorem tracksBeforeDescriptions_addTracks (ts : List Track) (l : List PCOp) :
    tracksBeforeDescriptions (ts.map PCOp.addTrack ++ l) = tracksBeforeDescriptions l := by
  induction ts with
  | nil => rfl
  | cons t ts _ih =>
    simp [tracksBeforeDescriptions, List.dropWhile_cons, isSetDescriptionOp]

theorem tracksBeforeDescriptions_offer_shape (ts : List Track) (d : SDP) :
    tracksBeforeDescriptions (ts.map PCOp.addTrack ++ [PCOp.setLocal d]) = true := by
  rw [tracksBeforeDescriptions_addTracks]
  rfl

theorem tracksBeforeDescriptions_answer_shape (ts : List Track) (a b : SDP) :
    tracksBeforeDescriptions
      (ts.map PCOp.addTrack ++ [PCOp.setRemote a, PCOp.setLocal b]) = true := by
  rw [tracksBeforeDescriptions_addTracks]
  rfl

end HandlerLemmas

section InvariantLemmas

theorem sendOffers_subset (ids : List (Option String)) (st : HomePageState)
    (h : streamSubset st) : streamSubset (sendOffers ids st).1 := by
  unfold sendOffers
  cases hio : st.ioConnection with
  | none => exact h
  | some s =>
    show streamSubset (sendOffersAux ids st).1
    intro k hk
    rw [(sendOffersAux_frame ids st).1] at hk
    exact mem_keys_of_get_isSome
      (sendOffersAux_contains_mono ids st k (get_isSome_of_mem_keys (h k hk)))

theorem getUserStreamData_subset (ms : MediaStream) (st : HomePageState)
    (h : streamSubset st) : streamSubset (getUserStreamData ms st).1 := by
  simp only [getUserStreamData]
  split
  · apply sendOffers_subset
    intro k hk
    rw [removeAllCurrentConnection_state] at hk ⊢
    exact h k hk
  · intro k hk
    exact h k hk

theorem step_streamSubset (st : HomePageState) (e : Event) (h : streamSubset st) :
    streamSubset (step st e).1 := by
  cases e with
  | onCreate _ => exact h
  | onJoin userIds =>
    cases userIds with
    | none => exact h
    | some ids => exact sendOffers_subset ids st h
  | receivedOffer o =>
    intro k hk
    simp only [step] at hk ⊢
    rw [onReceivedOffer_target] at hk
    exact onReceivedOffer_keys_mono o st k (h k hk)
  | receivedAnswer a =>
    intro k hk
    simp only [step] at hk ⊢
    rw [onReceivedAnswer_target] at hk
    exact onReceivedAnswer_keys_mono a st k (h k hk)
  | receivedCandidate c =>
    intro k hk
    simp only [step] at hk ⊢
    rw [onReceivedCandidate_target] at hk
    exact onReceivedCandidate_keys_mono c st k (h k hk)
  | userDisconnect rid =>
    cases rid with
    | none => exact h
    | some s =>
      intro k hk
      simp only [step, removeStream_state, removePeerConnection_state] at hk ⊢
      obtain ⟨hm, hne⟩ := (mem_keys_mapDelete_iff _ _ _).mp hk
      exact (mem_keys_mapDelete_iff _ _ _).mpr ⟨h k hm, hne⟩
  | channelDisconnect =>
    intro k hk
    simp only [step, removeAllPeerConnection] at hk ⊢
    rw [keys_map_values]
    exact h k hk
  | trackArrived rid t =>
    intro k hk
    simp only [step] at hk ⊢
    cases hg : mapGet st.peerConnectionMap rid with
    | none =>
      rw [hg] at hk
      exact h k hk
    | some pc =>
      rw [hg] at hk
      by_cases hc : pc.closed
      · simp only [hc, if_true] at hk ⊢
        exact h k hk
      · simp only [hc, Bool.false_eq_true, if_false, ontrackHandler] at hk ⊢
        rcases (mem_keys_mapSet_iff _ _ _ _).mp hk with hm | rfl
        · exact h k hm
        · exact mem_keys_of_get_some hg
  | localStreamRefresh ms => exact getUserStreamData_subset ms st h
  | destroy =>
    intro k hk
    simp [step, ngOnDestroyFn, mapKeys_nil] at hk

theorem runFrom_streamSubset (es : List Event) (st : HomePageState) (h : streamSubset st) :
    streamSubset (runFrom st es) := by
  induction es generalizing st with
  | nil => exact h
  | cons e es ih => exact ih _ (step_streamSubset st e h)

end InvariantLemmas

section MoreHelpers

theorem mem_of_get_some {α : Type} {m : List (Option String × α)} {k : Option String}
    {v : α} (h : mapGet m k = some v) : (k, v) ∈ m := by
  induction m with
  | nil => simp [mapGet] at h
  | cons kv rest ih =>
    obtain ⟨k1, v1⟩ := kv
    by_cases hk : k1 = k
    · subst hk
      rw [mapGet, if_pos rfl] at h
      injection h with h
      subst h
      exact List.mem_cons_self _ _
    · simp [mapGet, hk] at h
      exact List.mem_cons_of_mem _ (ih h)

theorem mem_foldr_stopped {l : List (Option String × MediaStream)}
    {kv : Option String × MediaStream} (hkv : kv ∈ l) {t : Track} (ht : t ∈ kv.2) :
    Effect.stoppedTrack t ∈
      l.foldr (fun kv acc => kv.2.map Effect.stoppedTrack ++ acc) [] := by
  induction l with
  | nil => cases hkv
  | cons kv0 rest ih =>
    rcases List.mem_cons.mp hkv with rfl | hm
    · exact List.mem_append_left _ (List.mem_map.mpr ⟨t, ht, rfl⟩)
    · exact List.mem_append_right _ (ih hm)

theorem getUserStreamData_char (newStream : MediaStream) (st : HomePageState)
    (soc : SocketState) (hsoc : st.ioConnection = some soc)
    (hne : 0 < st.peerConnectionMap.length) :
    getUserStreamData newStream st =
      ((sendOffersAux (mapKeys st.peerConnectionMap) (refreshLocal newStream st)).1,
       st.peerConnectionMap.map (fun kv => Effect.emit (OutMsg.removeConnection kv.1)) ++
         (sendOffersAux (mapKeys st.peerConnectionMap) (refreshLocal newStream st)).2) := by
  unfold getUserStreamData removeAllCurrentConnection sendOffers
  simp [refreshLocal, hsoc, hne]

theorem localTracks_refreshLocal (newStream : MediaStream) (st : HomePageState) :
    localTracks (refreshLocal newStream st) = newStream := by
  simp [localTracks, refreshLocal]

end MoreHelpers

section Claims

/-- Claim C1, counterexample: with one registered session and one remote stream,
after processing the `disconnect` (channel-loss) event the Peer Session Registry
and the Remote Stream Registry are NOT both empty — `removeAllPeerConnection`
closes the connections but clears neither map, so the claim as stated is false. -/
theorem c1_teardown_counterexample :
    ¬ ((step stOneSession Event.channelDisconnect).1.peerConnectionMap = [] ∧
       (step stOneSession Event.channelDisconnect).1.targetUserStreamDataMap = []) := by
  decide

/-- Claim C1, amended: after processing `disconnect`, every registered peer
connection has been closed (a close effect is observed for each former entry, and
every entry still registered is marked closed), but the Peer Session Registry
keeps exactly its keys and the Remote Stream Registry is left untouched —
neither registry is emptied. -/
theorem c1_teardown_amended (st : HomePageState) :
    mapKeys (step st Event.channelDisconnect).1.peerConnectionMap =
      mapKeys st.peerConnectionMap ∧
    (∀ kv ∈ (step st Event.channelDisconnect).1.peerConnectionMap, kv.2.closed = true) ∧
    (step st Event.channelDisconnect).1.targetUserStreamDataMap =
      st.targetUserStreamDataMap ∧
    ∀ kv ∈ st.peerConnectionMap,
      Effect.closedConnection kv.2.objId ∈ (step st Event.channelDisconnect).2 := by
  refine ⟨keys_map_values st.peerConnectionMap PeerConnection.close, ?_, rfl, ?_⟩
  · intro kv hkv
    simp only [step, removeAllPeerConnection] at hkv
    obtain ⟨kv0, hkv0, rfl⟩ := List.mem_map.mp hkv
    rfl
  · intro kv hkv
    simp only [step, removeAllPeerConnection]
    exact List.mem_map.mpr ⟨kv, List.mem_reverse.mpr hkv, rfl⟩

/-- Witness for the amended C1 at the concrete one-session state. -/
theorem c1_teardown_amended_witness :
    mapKeys (step stOneSession Event.channelDisconnect).1.peerConnectionMap =
      mapKeys stOneSession.peerConnectionMap ∧
    (∀ kv ∈ (step stOneSession Event.channelDisconnect).1.peerConnectionMap,
       kv.2.closed = true) ∧
    (step stOneSession Event.channelDisconnect).1.targetUserStreamDataMap =
      stOneSession.targetUserStreamDataMap ∧
    ∀ kv ∈ stOneSession.peerConnectionMap,
      Effect.closedConnection kv.2.objId ∈ (step stOneSession Event.channelDisconnect).2 :=
  c1_teardown_amended stOneSession

/-- Claim C4, code bug: `checkWebRTCAvailability` throws the camera error even on
the healthy input — WebRTC supported, webcam detected, video acquisition
succeeded with an enabled track — because its video condition tests for a
*disabled* track (`!v.enabled`), inverted relative to the audio check. -/
theorem c4_camera_check_inverted :
    checkWebRTCAvailability true true true (some [trackA])
      (some [{ trkId := 1, enabled := true }]) =
      Except.error RTCErrorKind.rtcNoAvailableCamera := by
  rfl

/-- Claim C6: `getOrCreatePeerConnection` is idempotent for every non-null
identifier — the second call returns the same peer-connection object and leaves
the state unchanged, the registry holds exactly one entry for the identifier,
and the event wiring was installed exactly once on the returned object. -/
theorem c6_getOrCreate_idempotent (st : HomePageState) (s : String)
    (hnd : (mapKeys st.peerConnectionMap).Nodup)
    (hw : ∀ kv ∈ st.peerConnectionMap, kv.2.wiringInstalls = 1) :
    (getOrCreatePeerConnection (some s) (getOrCreatePeerConnection (some s) st).2).1 =
      (getOrCreatePeerConnection (some s) st).1 ∧
    (getOrCreatePeerConnection (some s) (getOrCreatePeerConnection (some s) st).2).2 =
      (getOrCreatePeerConnection (some s) st).2 ∧
    ((getOrCreatePeerConnection (some s) st).2.peerConnectionMap.filter
        (fun kv => decide (kv.1 = some s))).length = 1 ∧
    (getOrCreatePeerConnection (some s) st).1.wiringInstalls = 1 := by
  cases hg : mapGet st.peerConnectionMap (some s) with
  | some pc =>
    have hmem := mem_of_get_some hg
    refine ⟨?_, ?_, ?_, ?_⟩
    · simp [getOrCreatePeerConnection, hg]
    · simp [getOrCreatePeerConnection, hg]
    · simp only [getOrCreatePeerConnection, hg, Option.isSome_some, if_true]
      exact filter_key_of_nodup _ _ hnd (by rw [hg]; rfl)
    · simpa [getOrCreatePeerConnection, hg] using hw (some s, pc) hmem
  | none =>
    refine ⟨?_, ?_, ?_, ?_⟩
    · simp [getOrCreatePeerConnection, hg, mapGet_set_self]
    · simp [getOrCreatePeerConnection, hg, mapGet_set_self]
    · simp [getOrCreatePeerConnection, hg,
            filter_key_set_of_get_none st.peerConnectionMap (some s) _ hg]
    · simp [getOrCreatePeerConnection, hg]

/-- Witness for C6 at the initial (empty-registry) state and identifier "B". -/
theorem c6_getOrCreate_idempotent_witness :
    (getOrCreatePeerConnection (some "B")
        (getOrCreatePeerConnection (some "B") initState).2).1 =
      (getOrCreatePeerConnection (some "B") initState).1 ∧
    (getOrCreatePeerConnection (some "B")
        (getOrCreatePeerConnection (some "B") initState).2).2 =
      (getOrCreatePeerConnection (some "B") initState).2 ∧
    ((getOrCreatePeerConnection (some "B") initState).2.peerConnectionMap.filter
        (fun kv => decide (kv.1 = some "B"))).length = 1 ∧
    (getOrCreatePeerConnection (some "B") initState).1.wiringInstalls = 1 :=
  c6_getOrCreate_idempotent initState "B" (by decide) (by decide)

/-- Claim C8: processing `on-user-disconnect(u)` removes u's peer session (with a
close effect) and u's remote stream (with a stop effect per track); when neither
exists the event is an idempotent no-op — the state is unchanged and no effect is
produced. -/
theorem c8_user_disconnect (st : HomePageState) (u : String) :
    mapGet (step st (Event.userDisconnect (some u))).1.peerConnectionMap (some u) = none ∧
    mapGet (step st (Event.userDisconnect (some u))).1.targetUserStreamDataMap
      (some u) = none ∧
    (∀ pc, mapGet st.peerConnectionMap (some u) = some pc →
       Effect.closedConnection pc.objId ∈ (step st (Event.userDisconnect (some u))).2) ∧
    (∀ ms, mapGet st.targetUserStreamDataMap (some u) = some ms →
       ∀ t ∈ ms, Effect.stoppedTrack t ∈ (step st (Event.userDisconnect (some u))).2) ∧
    (mapGet st.peerConnectionMap (some u) = none →
     mapGet st.targetUserStreamDataMap (some u) = none →
       (step st (Event.userDisconnect (some u))).1 = st ∧
       (step st (Event.userDisconnect (some u))).2 = []) := by
  refine ⟨?_, ?_, ?_, ?_, ?_⟩
  · simp only [step, removeStream_state, removePeerConnection_state]
    exact mapGet_delete_self _ _
  · simp only [step, removeStream_state, removePeerConnection_state]
    exact mapGet_delete_self _ _
  · intro pc hpc
    simp only [step, removePeerConnection, hpc]
    exact List.mem_append_left _ (List.mem_singleton.mpr rfl)
  · intro ms hms t ht
    simp only [step, removePeerConnection_state, removeStream, hms]
    exact List.mem_append_right _ (List.mem_map.mpr ⟨t, ht, rfl⟩)
  · intro h1 h2
    constructor
    · simp only [step, removeStream_state, removePeerConnection_state]
      rw [mapDelete_of_get_none _ _ h1, mapDelete_of_get_none _ _ h2]
    · simp [step, removePeerConnection, removeStream, h1, h2]

/-- Witness for C8 at the concrete one-session state: the session and stream for
"B" are removed, the connection-close and track-stop effects are observed. -/
theorem c8_user_disconnect_witness :
    mapGet (step stOneSession (Event.userDisconnect (some "B"))).1.peerConnectionMap
      (some "B") = none ∧
    mapGet (step stOneSession (Event.userDisconnect (some "B"))).1.targetUserStreamDataMap
      (some "B") = none ∧
    Effect.closedConnection pcB.objId ∈
      (step stOneSession (Event.userDisconnect (some "B"))).2 ∧
    Effect.stoppedTrack trackA ∈
      (step stOneSession (Event.userDisconnect (some "B"))).2 :=
  ⟨(c8_user_disconnect stOneSession "B").1,
   (c8_user_disconnect stOneSession "B").2.1,
   (c8_user_disconnect stOneSession "B").2.2.1 pcB (by rfl),
   (c8_user_disconnect stOneSession "B").2.2.2.1 [trackA] (by rfl) trackA
     (List.mem_singleton.mpr rfl)⟩

/-- Claim C10: `ngOnDestroy` closes every registered peer connection, stops every
remote stream track, clears both registries, and closes the signaling channel. -/
theorem c10_ngOnDestroy_teardown (st : HomePageState) :
    (ngOnDestroyFn st).1.peerConnectionMap = [] ∧
    (ngOnDestroyFn st).1.targetUserStreamDataMap = [] ∧
    (∀ kv ∈ st.peerConnectionMap,
       Effect.closedConnection kv.2.objId ∈ (ngOnDestroyFn st).2) ∧
    (∀ kv ∈ st.targetUserStreamDataMap, ∀ t ∈ kv.2,
       Effect.stoppedTrack t ∈ (ngOnDestroyFn st).2) ∧
    ∀ soc, st.ioConnection = some soc →
      (ngOnDestroyFn st).1.ioConnection = some { soc with closed := true } := by
  refine ⟨rfl, rfl, ?_, ?_, ?_⟩
  · intro kv hkv
    exact List.mem_append_left _ (List.mem_map.mpr ⟨kv, hkv, rfl⟩)
  · intro kv hkv t ht
    exact List.mem_append_right _ (mem_foldr_stopped hkv ht)
  · intro soc hsoc
    simp only [ngOnDestroyFn, hsoc]
    rfl

/-- Witness for C10 at the concrete one-session state. -/
theorem c10_ngOnDestroy_teardown_witness :
    (ngOnDestroyFn stOneSession).1.peerConnectionMap = [] ∧
    (ngOnDestroyFn stOneSession).1.targetUserStreamDataMap = [] ∧
    (∀ kv ∈ stOneSession.peerConnectionMap,
       Effect.closedConnection kv.2.objId ∈ (ngOnDestroyFn stOneSession).2) ∧
    (∀ kv ∈ stOneSession.targetUserStreamDataMap, ∀ t ∈ kv.2,
       Effect.stoppedTrack t ∈ (ngOnDestroyFn stOneSession).2) ∧
    ∀ soc, stOneSession.ioConnection = some soc →
      (ngOnDestroyFn stOneSession).1.ioConnection = some { soc with closed := true } :=
  c10_ngOnDestroy_teardown stOneSession

/-- Claim C9, counterexample: an inbound offer with a missing sender identifier is
not dropped — processing it from the initial state mutates the Peer Session
Registry (a session is created and registered under the null key). -/
theorem c9_missing_sender_counterexample :
    (step initState (Event.receivedOffer offerNullSender)).1.peerConnectionMap ≠ [] := by
  decide

/-- Claim C9, amended: an inbound offer, answer, or candidate whose sender
identifier is missing is processed anyway — `getOrCreatePeerConnection` skips the
registry lookup and registers a freshly created session (object identity
`st.nextObjId`) under the null key; only the Remote Stream Registry is left
unchanged. -/
theorem c9_missing_sender_amended (st : HomePageState) (o : Offer) (a : Answer)
    (cd : Candidate) (ho : o.senderId = none) (ha : a.senderId = none)
    (hc : cd.senderId = none) :
    (mapGet (step st (Event.receivedOffer o)).1.peerConnectionMap none).map
        PeerConnection.objId = some st.nextObjId ∧
    (step st (Event.receivedOffer o)).1.targetUserStreamDataMap =
      st.targetUserStreamDataMap ∧
    (mapGet (step st (Event.receivedAnswer a)).1.peerConnectionMap none).map
        PeerConnection.objId = some st.nextObjId ∧
    (step st (Event.receivedAnswer a)).1.targetUserStreamDataMap =
      st.targetUserStreamDataMap ∧
    (mapGet (step st (Event.receivedCandidate cd)).1.peerConnectionMap none).map
        PeerConnection.objId = some st.nextObjId ∧
    (step st (Event.receivedCandidate cd)).1.targetUserStreamDataMap =
      st.targetUserStreamDataMap := by
  refine ⟨?_, onReceivedOffer_target o st, ?_, onReceivedAnswer_target a st, ?_,
          onReceivedCandidate_target cd st⟩
  · simp [step, onReceivedOfferHandler, getOrCreatePeerConnection, ho,
          attachLocalTracks_char, PeerConnection.setRemoteDescription,
          PeerConnection.setLocalDescription, createAnswer, mapGet_set_self]
  · simp [step, onReceivedAnswerHandler, getOrCreatePeerConnection, ha,
          PeerConnection.setRemoteDescription, mapGet_set_self]
  · simp [step, onReceivedCandidateHandler, getOrCreatePeerConnection, hc,
          PeerConnection.addIceCandidate, mapGet_set_self]

/-- Witness for the amended C9 at the initial state and the three concrete
sender-less messages. -/
theorem c9_missing_sender_amended_witness :
    (mapGet (step initState (Event.receivedOffer offerNullSender)).1.peerConnectionMap
        none).map PeerConnection.objId = some initState.nextObjId ∧
    (step initState (Event.receivedOffer offerNullSender)).1.targetUserStreamDataMap =
      initState.targetUserStreamDataMap ∧
    (mapGet (step initState (Event.receivedAnswer answerNullSender)).1.peerConnectionMap
        none).map PeerConnection.objId = some initState.nextObjId ∧
    (step initState (Event.receivedAnswer answerNullSender)).1.targetUserStreamDataMap =
      initState.targetUserStreamDataMap ∧
    (mapGet (step initState
        (Event.receivedCandidate candidateNullSender)).1.peerConnectionMap
        none).map PeerConnection.objId = some initState.nextObjId ∧
    (step initState (Event.receivedCandidate candidateNullSender)).1.targetUserStreamDataMap =
      initState.targetUserStreamDataMap :=
  c9_missing_sender_amended initState offerNullSender answerNullSender
    candidateNullSender rfl rfl rfl

/-- Claim C2: for an inbound offer from sender c, the handler obtains or creates
c's session, attaches all current local tracks, then sets the inbound offer as
the remote description, creates an answer and sets it as the (non-null) local
description, and emits exactly one `transfer-answer` addressed to c carrying that
local description.  The operation log shows the attachments preceding this
event's description settings; on a fresh session the attachments precede every
description ever set. -/
theorem c2_offer_handling (st : HomePageState) (o : Offer) (c : String)
    (hs : o.senderId = some c) :
    ∃ pc, mapGet (step st (Event.receivedOffer o)).1.peerConnectionMap (some c) =
        some pc ∧
      pc.remoteDescription = some o.sdp ∧
      pc.localDescription = some (SDP.answer pc.objId) ∧
      pc.ops = ((mapGet st.peerConnectionMap (some c)).map PeerConnection.ops).getD []
               ++ (localTracks st).map PCOp.addTrack
               ++ [PCOp.setRemote o.sdp, PCOp.setLocal (SDP.answer pc.objId)] ∧
      (mapGet st.peerConnectionMap (some c) = none →
        tracksBeforeDescriptions pc.ops = true) ∧
      (step st (Event.receivedOffer o)).2 =
        [Effect.emit (OutMsg.transferAnswer (some (SDP.answer pc.objId))
          (socketSenderId st) (some c))] := by
  cases hg : mapGet st.peerConnectionMap (some c) with
  | some pc0 =>
    refine ⟨{ pc0 with
               tracks := pc0.tracks ++ localTracks st,
               remoteDescription := some o.sdp,
               localDescription := some (SDP.answer pc0.objId),
               ops := pc0.ops ++ (localTracks st).map PCOp.addTrack ++
                      [PCOp.setRemote o.sdp, PCOp.setLocal (SDP.answer pc0.objId)] },
            ?_, rfl, rfl, ?_, ?_, ?_⟩
    · simp [step, onReceivedOfferHandler, getOrCreatePeerConnection, hs, hg,
            attachLocalTracks_char, PeerConnection.setRemoteDescription,
            PeerConnection.setLocalDescription, createAnswer, mapGet_set_self,
            List.append_assoc]
    · simp [hg]
    · intro hnone
      simp at hnone
    · simp [step, onReceivedOfferHandler, getOrCreatePeerConnection, hs, hg,
            attachLocalTracks_char, PeerConnection.setRemoteDescription,
            PeerConnection.setLocalDescription, createAnswer, socketSenderId]
  | none =>
    refine ⟨{ objId := st.nextObjId,
              tracks := localTracks st,
              localDescription := some (SDP.answer st.nextObjId),
              remoteDescription := some o.sdp,
              candidates := [], closed := false, wiringInstalls := 1,
              ops := (localTracks st).map PCOp.addTrack ++
                     [PCOp.setRemote o.sdp, PCOp.setLocal (SDP.answer st.nextObjId)] },
            ?_, rfl, rfl, ?_, ?_, ?_⟩
    · simp [step, onReceivedOfferHandler, getOrCreatePeerConnection, hs, hg,
            attachLocalTracks_char, PeerConnection.setRemoteDescription,
            PeerConnection.setLocalDescription, createAnswer, mapGet_set_self,
            localTracks]
    · simp [hg]
    · intro hnone
      exact tracksBeforeDescriptions_answer_shape _ _ _
    · simp [step, onReceivedOfferHandler, getOrCreatePeerConnection, hs, hg,
            attachLocalTracks_char, PeerConnection.setRemoteDescription,
            PeerConnection.setLocalDescription, createAnswer, socketSenderId]

/-- Witness for C2 at the initial state and the concrete offer from "C". -/
theorem c2_offer_handling_witness :
    ∃ pc, mapGet (step initState
        (Event.receivedOffer offerFromC)).1.peerConnectionMap (some "C") = some pc ∧
      pc.remoteDescription = some offerFromC.sdp ∧
      pc.localDescription = some (SDP.answer pc.objId) ∧
      pc.ops = ((mapGet initState.peerConnectionMap (some "C")).map
                  PeerConnection.ops).getD []
               ++ (localTracks initState).map PCOp.addTrack
               ++ [PCOp.setRemote offerFromC.sdp, PCOp.setLocal (SDP.answer pc.objId)] ∧
      (mapGet initState.peerConnectionMap (some "C") = none →
        tracksBeforeDescriptions pc.ops = true) ∧
      (step initState (Event.receivedOffer offerFromC)).2 =
        [Effect.emit (OutMsg.transferAnswer (some (SDP.answer pc.objId))
          (socketSenderId initState) (some "C"))] :=
  c2_offer_handling initState offerFromC "C" rfl

/-- Claim C7: keyset consistency — in every state reachable by any sequence of
events from the initial state, every identifier holding an entry in the Remote
Stream Registry also holds an entry in the Peer Session Registry. -/
theorem c7_registry_keyset_consistency (es : List Event) : streamSubset (run es) :=
  runFrom_streamSubset es initState
    (fun k hk => absurd hk (by simp [initState, mapKeys]))

/-- Witness for C7: after an offer from "C" and a track arrival for "C", the
stream key "C" is indeed backed by a peer-session key "C". -/
theorem c7_registry_keyset_consistency_witness :
    some "C" ∈ mapKeys (run [Event.receivedOffer offerFromC,
        Event.trackArrived (some "C") trackA]).peerConnectionMap :=
  c7_registry_keyset_consistency
    [Event.receivedOffer offerFromC, Event.trackArrived (some "C") trackA]
    (some "C") (by decide)

/-- Claim C5: for an `on-join` event carrying a duplicate-free list S of fresh
identifiers (socket connected), after processing every identifier of S is
registered, each such session's operation log consists of the local-track
attachments followed by the local offer description — attachment precedes any
description — and a `transfer-offer` addressed to each identifier is emitted. -/
theorem c5_on_join_contract (st : HomePageState) (S : List (Option String))
    (hio : st.ioConnection.isSome = true) (hnd : S.Nodup)
    (hfresh : ∀ id0 ∈ S, mapGet st.peerConnectionMap id0 = none) :
    (∀ id0 ∈ S,
       (mapGet (step st (Event.onJoin (some S))).1.peerConnectionMap id0).isSome =
         true) ∧
    (∀ id0 ∈ S, ∃ pc,
       mapGet (step st (Event.onJoin (some S))).1.peerConnectionMap id0 = some pc ∧
       pc.ops = (localTracks st).map PCOp.addTrack ++
                [PCOp.setLocal (SDP.offer pc.objId)] ∧
       tracksBeforeDescriptions pc.ops = true) ∧
    (∀ id0 ∈ S, ∃ d sid, Effect.emit (OutMsg.transferOffer (some d) sid id0) ∈
       (step st (Event.onJoin (some S))).2) := by
  obtain ⟨soc, hsoc⟩ := Option.isSome_iff_exists.mp hio
  have hstep1 : (step st (Event.onJoin (some S))).1 = (sendOffersAux S st).1 := by
    simp [step, sendOffers, hsoc]
  have hstep2 : (step st (Event.onJoin (some S))).2 = (sendOffersAux S st).2 := by
    simp [step, sendOffers, hsoc]
  refine ⟨?_, ?_, ?_⟩
  · intro id0 hid
    rw [hstep1]
    exact sendOffersAux_mem_contains S st id0 hid
  · intro id0 hid
    rw [hstep1]
    obtain ⟨pc, h1, h2⟩ := sendOffersAux_fresh S st id0 hnd hid (hfresh id0 hid)
    exact ⟨pc, h1, h2, by rw [h2]; exact tracksBeforeDescriptions_offer_shape _ _⟩
  · intro id0 hid
    rw [hstep2]
    exact sendOffersAux_effects S st id0 hid

/-- Witness for C5 at the initial state with S = ["B"]. -/
theorem c5_on_join_contract_witness :
    (∀ id0 ∈ [some "B"],
       (mapGet (step initState
          (Event.onJoin (some [some "B"]))).1.peerConnectionMap id0).isSome = true) ∧
    (∀ id0 ∈ [some "B"], ∃ pc,
       mapGet (step initState
          (Event.onJoin (some [some "B"]))).1.peerConnectionMap id0 = some pc ∧
       pc.ops = (localTracks initState).map PCOp.addTrack ++
                [PCOp.setLocal (SDP.offer pc.objId)] ∧
       tracksBeforeDescriptions pc.ops = true) ∧
    (∀ id0 ∈ [some "B"], ∃ d sid, Effect.emit (OutMsg.transferOffer (some d) sid id0) ∈
       (step initState (Event.onJoin (some [some "B"]))).2) :=
  c5_on_join_contract initState [some "B"] rfl (by decide) (by decide)

/-- Claim C3, counterexample: at the concrete one-session state (session object
identity 5 registered for "B"), after the local-stream refresh the registered
session for "B" still has object identity 5 — the pre-existing object was kept,
not replaced by a fresh recreation, refuting the discard-and-recreate part of
the claim. -/
theorem c3_stream_refresh_counterexample :
    (mapGet (step stOneSession
        (Event.localStreamRefresh [trackA])).1.peerConnectionMap (some "B")).map
      PeerConnection.objId = some 5 ∧
    (mapGet stOneSession.peerConnectionMap (some "B")).map PeerConnection.objId =
      some 5 := by
  decide

/-- Claim C3, amended: replacing the Local Stream while sessions exist emits a
`remove-connection` for every registered identifier and re-sends an offer to each
with the new stream's tracks attached — but the local sessions are NOT discarded
and recreated: every identifier keeps its pre-existing session object (same
object identity), because `removeAllCurrentConnection` only notifies the relay
and never removes the local registry entries. -/
theorem c3_stream_refresh_amended (st : HomePageState) (newStream : MediaStream)
    (hio : st.ioConnection.isSome = true)
    (hnd : (mapKeys st.peerConnectionMap).Nodup)
    (hsome : ∀ k ∈ mapKeys st.peerConnectionMap, k.isSome = true) :
    (∀ k ∈ mapKeys st.peerConnectionMap,
       Effect.emit (OutMsg.removeConnection k) ∈
         (step st (Event.localStreamRefresh newStream)).2) ∧
    (∀ k ∈ mapKeys st.peerConnectionMap, ∃ d sid,
       Effect.emit (OutMsg.transferOffer (some d) sid k) ∈
         (step st (Event.localStreamRefresh newStream)).2) ∧
    (∀ k ∈ mapKeys st.peerConnectionMap,
       (mapGet (step st (Event.localStreamRefresh newStream)).1.peerConnectionMap k).map
           PeerConnection.objId =
         (mapGet st.peerConnectionMap k).map PeerConnection.objId) ∧
    (∀ k ∈ mapKeys st.peerConnectionMap, ∀ t ∈ newStream, ∃ pc,
       mapGet (step st (Event.localStreamRefresh newStream)).1.peerConnectionMap k =
         some pc ∧ PCOp.addTrack t ∈ pc.ops) := by
  obtain ⟨soc, hsoc⟩ := Option.isSome_iff_exists.mp hio
  have hstep : step st (Event.localStreamRefresh newStream) =
      getUserStreamData newStream st := rfl
  have hlen : ∀ k, k ∈ mapKeys st.peerConnectionMap →
      0 < st.peerConnectionMap.length := by
    intro k hk
    cases hm : st.peerConnectionMap with
    | nil => rw [hm] at hk; cases hk
    | cons a l => simp [hm]
  refine ⟨?_, ?_, ?_, ?_⟩
  · intro k hk
    have he : (step st (Event.localStreamRefresh newStream)).2 =
        st.peerConnectionMap.map (fun kv => Effect.emit (OutMsg.removeConnection kv.1)) ++
          (sendOffersAux (mapKeys st.peerConnectionMap)
            (refreshLocal newStream st)).2 := by
      rw [hstep, getUserStreamData_char newStream st soc hsoc (hlen k hk)]
    rw [he]
    obtain ⟨kv, hkv, hfst⟩ := List.mem_map.mp hk
    exact List.mem_append_left _ (List.mem_map.mpr ⟨kv, hkv, by rw [hfst]⟩)
  · intro k hk
    have he : (step st (Event.localStreamRefresh newStream)).2 =
        st.peerConnectionMap.map (fun kv => Effect.emit (OutMsg.removeConnection kv.1)) ++
          (sendOffersAux (mapKeys st.peerConnectionMap)
            (refreshLocal newStream st)).2 := by
      rw [hstep, getUserStreamData_char newStream st soc hsoc (hlen k hk)]
    rw [he]
    obtain ⟨d, sid, hm⟩ :=
      sendOffersAux_effects (mapKeys st.peerConnectionMap) (refreshLocal newStream st) k hk
    exact ⟨d, sid, List.mem_append_right _ hm⟩
  · intro k hk
    have hs1 : (step st (Event.localStreamRefresh newStream)).1 =
        (sendOffersAux (mapKeys st.peerConnectionMap) (refreshLocal newStream st)).1 := by
      rw [hstep, getUserStreamData_char newStream st soc hsoc (hlen k hk)]
    obtain ⟨pc0, hpc0⟩ := Option.isSome_iff_exists.mp (get_isSome_of_mem_keys hk)
    have hres := sendOffersAux_existing (mapKeys st.peerConnectionMap)
      (refreshLocal newStream st) k pc0 hnd hk (hsome k hk) hpc0
    rw [hs1, hres, hpc0]
    rfl
  · intro k hk t ht
    have hs1 : (step st (Event.localStreamRefresh newStream)).1 =
        (sendOffersAux (mapKeys st.peerConnectionMap) (refreshLocal newStream st)).1 := by
      rw [hstep, getUserStreamData_char newStream st soc hsoc (hlen k hk)]
    obtain ⟨pc0, hpc0⟩ := Option.isSome_iff_exists.mp (get_isSome_of_mem_keys hk)
    have hres := sendOffersAux_existing (mapKeys st.peerConnectionMap)
      (refreshLocal newStream st) k pc0 hnd hk (hsome k hk) hpc0
    rw [localTracks_refreshLocal] at hres
    refine ⟨_, by rw [hs1]; exact hres, ?_⟩
    exact List.mem_append_left _
      (List.mem_append_right _ (List.mem_map.mpr ⟨t, ht, rfl⟩))

/-- Witness for the amended C3 at the concrete one-session state, with the new
local stream consisting of one track. -/
theorem c3_stream_refresh_amended_witness :
    Effect.emit (OutMsg.removeConnection (some "B")) ∈
      (step stOneSession (Event.localStreamRefresh [trackA])).2 ∧
    (∃ d sid, Effect.emit (OutMsg.transferOffer (some d) sid (some "B")) ∈
      (step stOneSession (Event.localStreamRefresh [trackA])).2) ∧
    (mapGet (step stOneSession
        (Event.localStreamRefresh [trackA])).1.peerConnectionMap (some "B")).map
        PeerConnection.objId =
      (mapGet stOneSession.peerConnectionMap (some "B")).map PeerConnection.objId ∧
    (∃ pc, mapGet (step stOneSession
        (Event.localStreamRefresh [trackA])).1.peerConnectionMap (some "B") = some pc ∧
      PCOp.addTrack trackA ∈ pc.ops) := by
  refine ⟨?_, ?_, ?_, ?_⟩
  · exact (c3_stream_refresh_amended stOneSession [trackA] rfl (by decide)
      (by decide)).1 (some "B") (by decide)
  · exact (c3_stream_refresh_amended stOneSession [trackA] rfl (by decide)
      (by decide)).2.1 (some "B") (by decide)
  · exact (c3_stream_refresh_amended stOneSession [trackA] rfl (by decide)
      (by decide)).2.2.1 (some "B") (by decide)
  · exact (c3_stream_refresh_amended stOneSession [trackA] rfl (by decide)
      (by decide)).2.2.2 (some "B") (by decide) trackA (by decide)

end Claims

end WebRTCClient
